import Mathlib

set_option autoImplicit false

/- Shallow embedding of the update-recovery loop in
   pyrogram/methods/utilities/recover.py and of the SQLite-backed update-state
   and peer storage in pyrogram/storage/sqlite_storage.py.  Database tables are
   modelled as lists of rows; the remote GetDifference endpoint is modelled by a
   script of responses consumed one per loop iteration, an exhausted script
   standing for the invoke call raising (the except branch: log and break). -/

namespace Pyrogram

/-- Row of the state table (columns id, pts, date, qts, seq), which is also the
State object returned by get_state in sqlite_storage.py. -/
structure State where
  id : Int
  pts : Int
  date : Int
  qts : Option Int
  seq : Option Int
deriving DecidableEq, Repr

/-- Contents of the state table: one row per scope id. -/
abbrev StateDB : Type := List State

/-- Mirrors State.default: pts 1, date = current time, qts and seq unset. -/
def State.default (id : Int) (now : Int) : State :=
  ⟨id, 1, now, none, none⟩

/-- Mirrors the SELECT ... WHERE id = ? of get_state: the row with the given
primary key, if any. -/
def findRow (db : StateDB) (id : Int) : Option State :=
  db.find? (fun s => s.id == id)

/-- Mirrors StateMixin.get_state: fetch the row by id, synthesizing the default
state (never persisting it) when the row is absent.  The source method only
issues a SELECT, so it is a pure function of the table. -/
def get_state (db : StateDB) (now : Int) (id : Int) : State :=
  match findRow db id with
  | none => State.default id now
  | some s => s

/-- Mirrors StateMixin.update_state (REPLACE INTO): whole-row upsert; a missing
date argument is replaced by the current time. -/
def update_state (db : StateDB) (now : Int) (id : Int) (pts : Int)
    (date : Option Int) (qts : Option Int) (seq : Option Int) : StateDB :=
  ⟨id, pts, date.getD now, qts, seq⟩ :: db.filter (fun s => !(s.id == id))

/-- Mirrors StateMixin.reset_state: UPDATE state SET pts = 1 WHERE id = ?, which
rewrites existing rows with that key and creates nothing. -/
def reset_state (db : StateDB) (id : Int) : StateDB :=
  db.map (fun s => if s.id == id then { s with pts := 1 } else s)

/-- Typed failures of the peer lookups: the KeyError / ValueError raises of
sqlite_storage.py, i.e. the NotFound / Expired / InvalidKind taxonomy. -/
inductive PeerError where
  | notFound
  | expired
  | invalidKind
deriving DecidableEq, Repr

/-- Results of get_input_peer: the three raw InputPeer constructors used by
sqlite_storage.py. -/
inductive InputPeer where
  | user (user_id : Int) (access_hash : Int)
  | chat (chat_id : Int)
  | channel (channel_id : Int) (access_hash : Int)
deriving DecidableEq, Repr

/-- Modelled from the spec: utils.get_channel_id is not among the provided
source files; section 4.2 of the spec describes it as a fixed numeric
offset/encoding applied to the raw id. -/
def get_channel_id (peer_id : Int) : Int :=
  -1000000000000 - peer_id

/-- Mirrors get_input_peer in sqlite_storage.py: dispatch on the peer type
string; an unrecognized type raises ValueError (invalidKind). -/
def get_input_peer (peer_id : Int) (access_hash : Int) (peer_type : String) :
    Except PeerError InputPeer :=
  if peer_type = "user" ∨ peer_type = "bot" then
    Except.ok (InputPeer.user peer_id access_hash)
  else if peer_type = "group" then
    Except.ok (InputPeer.chat (-peer_id))
  else if peer_type = "channel" ∨ peer_type = "supergroup" then
    Except.ok (InputPeer.channel (get_channel_id peer_id) access_hash)
  else
    Except.error PeerError.invalidKind

/-- Row of the peers table. -/
structure PeerRow where
  id : Int
  access_hash : Int
  type : String
  username : Option String
  phone_number : Option String
  last_update_on : Int
deriving DecidableEq, Repr

/-- Contents of the peers table. -/
abbrev PeerDB : Type := List PeerRow

/-- Mirrors SQLiteStorage.USERNAME_TTL: eight hours, in seconds. -/
def USERNAME_TTL : Nat := 8 * 60 * 60

/-- Models ORDER BY last_update_on DESC followed by fetchone: the first row
carrying the greatest last_update_on among the given rows. -/
def freshest : List PeerRow → Option PeerRow
  | [] => none
  | r :: rs =>
    match freshest rs with
    | none => some r
    | some b => if b.last_update_on > r.last_update_on then some b else some r

/-- Mirrors SQLiteStorage.get_peer_by_username: take the freshest row matching
the username, fail with notFound when there is none, with expired when the
absolute distance between now and its last_update_on exceeds the TTL, and
otherwise build the input peer from the row. -/
def get_peer_by_username (db : PeerDB) (now : Int) (username : String) :
    Except PeerError InputPeer :=
  match freshest (db.filter (fun r => r.username == some username)) with
  | none => Except.error PeerError.notFound
  | some r =>
    if USERNAME_TTL < (now - r.last_update_on).natAbs then
      Except.error PeerError.expired
    else
      get_input_peer r.id r.access_hash r.type

/-- Update state embedded in a Difference (state) or DifferenceSlice
(intermediate_state) response. -/
structure DiffState where
  pts : Int
  date : Int
  seq : Int
deriving DecidableEq, Repr

/-- Raw user object carried by a difference response, keyed by its id. -/
structure RawUser where
  id : Int
deriving DecidableEq, Repr

/-- Raw chat object carried by a difference response, keyed by its id. -/
structure RawChat where
  id : Int
deriving DecidableEq, Repr

/-- Successful results of the GetDifference call, as classified by the
isinstance chain in Recover.recover_updates; messages are identified by id. -/
inductive DiffResponse where
  | empty (date : Int) (seq : Int)
  | tooLong (pts : Int)
  | full (state : DiffState) (new_messages : List Int)
      (users : List RawUser) (chats : List RawChat)
  | slice (intermediate_state : DiffState) (new_messages : List Int)
      (users : List RawUser) (chats : List RawChat)
deriving DecidableEq, Repr

/-- Arguments of one GetDifference invocation issued by the loop. -/
structure QueryArgs where
  pts : Int
  date : Int
  qts : Int
  pts_total_limit : Int
deriving DecidableEq, Repr

/-- One storage.update_state call made by the recovery loop; qts is never
passed by the loop, so it is recorded at its None default. -/
structure StateWrite where
  id : Int
  pts : Int
  date : Int
  qts : Option Int
  seq : Option Int
deriving DecidableEq, Repr

/-- The UpdateNewMessage envelope put on the dispatcher queue. -/
structure UpdateNewMessage where
  message : Int
  pts : Int
  pts_count : Int
deriving DecidableEq, Repr

/-- One item put on dispatcher.updates_queue: the envelope together with the
per-response users and chats dicts. -/
abbrev QueueItem : Type :=
  UpdateNewMessage × List (Int × RawUser) × List (Int × RawChat)

/-- Terminal condition of one recovery run: DifferenceEmpty (done), the invoke
call raising (aborted), or a repeated intermediate pts (stuck). -/
inductive Terminal where
  | done
  | aborted
  | stuck
deriving DecidableEq, Repr

/-- Observable trace of one recover_updates run: queries issued, cursor writes
made, queue items emitted, how the loop ended, and the final counters. -/
structure RunResult where
  queries : List QueryArgs
  persists : List StateWrite
  events : List QueueItem
  terminal : Terminal
  message_updates_counter : Nat
  other_updates_counter : Nat
deriving DecidableEq, Repr

/-- In-memory working variables of the loop. -/
structure LoopState where
  local_pts : Int
  local_date : Int
  local_seq : Option Int
  prev_pts : Int
  message_updates_counter : Nat
  other_updates_counter : Nat
deriving DecidableEq, Repr

/-- GetDifference arguments built from the current working variables:
pts = local_pts, date = local_date, qts = 0, pts_total_limit = 1000000. -/
def mkQuery (ls : LoopState) : QueryArgs :=
  ⟨ls.local_pts, ls.local_date, 0, 1000000⟩

/-- Dict comprehension building the per-response users map. -/
def usersDict (us : List RawUser) : List (Int × RawUser) :=
  us.map (fun u => (u.id, u))

/-- Dict comprehension building the per-response chats map. -/
def chatsDict (cs : List RawChat) : List (Int × RawChat) :=
  cs.map (fun c => (c.id, c))

/-- Queue items produced for the new messages of one response: each message is
wrapped with the current local pts and the sentinel pts_count of -1. -/
def emitEvents (pts : Int) (msgs : List Int) (us : List RawUser)
    (cs : List RawChat) : List QueueItem :=
  msgs.map (fun m => (⟨m, pts, -1⟩, usersDict us, chatsDict cs))

/-- The while-True loop of Recover.recover_updates, fed one scripted response
per iteration; an exhausted script models the invoke call raising, which the
source logs and then breaks out of the loop. -/
def recoverLoop (stateId : Int) (ls : LoopState) :
    List DiffResponse → RunResult
  | [] =>
    ⟨[mkQuery ls], [], [], Terminal.aborted,
      ls.message_updates_counter, ls.other_updates_counter⟩
  | DiffResponse.empty d s :: _ =>
    ⟨[mkQuery ls], [⟨stateId, ls.local_pts, d, none, some s⟩], [],
      Terminal.done, ls.message_updates_counter, ls.other_updates_counter⟩
  | DiffResponse.tooLong p :: rest =>
    let r := recoverLoop stateId ls rest
    { r with
      queries := mkQuery ls :: r.queries,
      persists := ⟨stateId, p, ls.local_date, none, ls.local_seq⟩ :: r.persists }
  | DiffResponse.full st msgs us cs :: rest =>
    let ls1 : LoopState :=
      ⟨st.pts, st.date, some st.seq, ls.prev_pts,
        ls.message_updates_counter + msgs.length, ls.other_updates_counter⟩
    let r := recoverLoop stateId ls1 rest
    { r with
      queries := mkQuery ls :: r.queries,
      events := emitEvents st.pts msgs us cs ++ r.events }
  | DiffResponse.slice st msgs us cs :: rest =>
    if ls.prev_pts = st.pts then
      ⟨[mkQuery ls], [], [], Terminal.stuck,
        ls.message_updates_counter, ls.other_updates_counter⟩
    else
      let ls1 : LoopState :=
        ⟨st.pts, st.date, some st.seq, st.pts,
          ls.message_updates_counter + msgs.length, ls.other_updates_counter⟩
      let r := recoverLoop stateId ls1 rest
      { r with
        queries := mkQuery ls :: r.queries,
        events := emitEvents st.pts msgs us cs ++ r.events }

/-- Mirrors Recover.recover_updates: load the scope-0 state into the working
variables, start with prev_pts = 0 and zeroed counters, and run the loop. -/
def recover_updates (db : StateDB) (now : Int) (script : List DiffResponse) :
    RunResult :=
  let st := get_state db now 0
  recoverLoop st.id ⟨st.pts, st.date, st.seq, 0, 0, 0⟩ script

/-- Application of one recorded update_state call to the state table (the loop
always passes an explicit date, recorded in the write). -/
def applyWrite (db : StateDB) (now : Int) (w : StateWrite) : StateDB :=
  update_state db now w.id w.pts (some w.date) w.qts w.seq

/-- Application of a run's recorded cursor writes, in order. -/
def applyWrites (db : StateDB) (now : Int) (ws : List StateWrite) : StateDB :=
  ws.foldl (fun d w => applyWrite d now w) db

theorem findRow_nil (id : Int) : findRow [] id = none := rfl

theorem findRow_cons (s : State) (db : StateDB) (id : Int) :
    findRow (s :: db) id = if s.id == id then some s else findRow db id := by
  cases h : s.id == id <;> simp [findRow, List.find?, h]

theorem findRow_some_id (db : StateDB) (id : Int) (s : State)
    (h : findRow db id = some s) : s.id = id := by
  have := List.find?_some h
  exact eq_of_beq this

theorem get_state_of_findRow_none (db : StateDB) (now id : Int)
    (h : findRow db id = none) : get_state db now id = ⟨id, 1, now, none, none⟩ := by
  simp [get_state, h, State.default]

theorem get_state_of_findRow_some (db : StateDB) (now id : Int) (s : State)
    (h : findRow db id = some s) : get_state db now id = s := by
  simp [get_state, h]

theorem get_state_id (db : StateDB) (now id : Int) :
    (get_state db now id).id = id := by
  unfold get_state
  cases h : findRow db id with
  | none => rfl
  | some s => exact findRow_some_id db id s h

theorem findRow_reset (db : StateDB) (id : Int) :
    findRow (reset_state db id) id =
      (findRow db id).map (fun s => { s with pts := 1 }) := by
  induction db with
  | nil => rfl
  | cons s rest ih =>
    cases h : s.id == id with
    | true =>
      have he : s.id = id := by simpa using h
      simp [reset_state, findRow_cons, he]
    | false =>
      have he : ¬ s.id = id := by simpa using h
      simpa [reset_state, findRow_cons, he] using ih

/-- C5: reading a scope with no stored row synthesizes the default state, with
pts 1, date equal to the call time, and qts and seq unset; get_state issues only
a SELECT, modelled as a pure function of the table, so the default is never
persisted by the read. -/
theorem c5_get_missing_returns_default (db : StateDB) (now id : Int)
    (h : findRow db id = none) :
    get_state db now id = ⟨id, 1, now, none, none⟩ :=
  get_state_of_findRow_none db now id h

theorem c5_get_missing_returns_default_witness :
    findRow [] 0 = none ∧ get_state [] 42 0 = ⟨0, 1, 42, none, none⟩ :=
  ⟨rfl, c5_get_missing_returns_default [] 42 0 rfl⟩

/-- C7: update_state followed by get_state on the same scope, with the date
given explicitly, returns exactly the written values. -/
theorem c7_update_then_get_roundtrip (db : StateDB) (now now2 id pts date : Int)
    (qts seq : Option Int) :
    get_state (update_state db now id pts (some date) qts seq) now2 id =
      ⟨id, pts, date, qts, seq⟩ := by
  simp [get_state, update_state, findRow_cons]

/-- C10: resetting a scope that has no stored row leaves the table unchanged
(the UPDATE matches zero rows and creates none), so a subsequent get_state on
that scope still synthesizes the default state from its own call time. -/
theorem c10_reset_missing_is_noop (db : StateDB) (now id : Int)
    (h : findRow db id = none) :
    reset_state db id = db ∧
    get_state (reset_state db id) now id = ⟨id, 1, now, none, none⟩ := by
  have h1 : reset_state db id = db := by
    induction db with
    | nil => rfl
    | cons s rest ih =>
      rw [findRow_cons] at h
      by_cases hb : s.id = id
      · rw [if_pos (by simp [hb])] at h
        exact absurd h (by simp)
      · rw [if_neg (by simp [hb])] at h
        simp only [reset_state, List.map_cons]
        rw [if_neg (by simp [hb])]
        simpa [reset_state] using ih h
  exact ⟨h1, by rw [h1]; exact get_state_of_findRow_none db now id h⟩

theorem c10_reset_missing_is_noop_witness :
    findRow [(⟨1, 5, 6, none, none⟩ : State)] 0 = none ∧
    reset_state [(⟨1, 5, 6, none, none⟩ : State)] 0 = [⟨1, 5, 6, none, none⟩] ∧
    get_state (reset_state [(⟨1, 5, 6, none, none⟩ : State)] 0) 9 0 =
      ⟨0, 1, 9, none, none⟩ := by
  refine ⟨by decide, ?_, ?_⟩
  · exact (c10_reset_missing_is_noop [⟨1, 5, 6, none, none⟩] 9 0 (by decide)).1
  · exact (c10_reset_missing_is_noop [⟨1, 5, 6, none, none⟩] 9 0 (by decide)).2

/-- C6: resetting a scope that has a stored row changes only its pts to 1,
preserving the stored date, qts and seq, and resetting twice leaves the same
table as resetting once. -/
theorem c6_reset_sets_only_pts (db : StateDB) (now id : Int) (r : State)
    (h : findRow db id = some r) :
    get_state (reset_state db id) now id = ⟨id, 1, r.date, r.qts, r.seq⟩ ∧
    reset_state (reset_state db id) id = reset_state db id := by
  constructor
  · have hid : r.id = id := findRow_some_id db id r h
    have : findRow (reset_state db id) id = some { r with pts := 1 } := by
      rw [findRow_reset, h]
      rfl
    rw [get_state_of_findRow_some _ now id _ this]
    simp [hid]
  · unfold reset_state
    rw [List.map_map]
    congr 1
    funext s
    by_cases h2 : s.id = id <;> simp [Function.comp, h2]

theorem c6_reset_sets_only_pts_witness :
    findRow [(⟨0, 7, 100, some 2, some 3⟩ : State)] 0 = some ⟨0, 7, 100, some 2, some 3⟩ ∧
    get_state (reset_state [(⟨0, 7, 100, some 2, some 3⟩ : State)] 0) 55 0 =
      ⟨0, 1, 100, some 2, some 3⟩ ∧
    reset_state (reset_state [(⟨0, 7, 100, some 2, some 3⟩ : State)] 0) 0 =
      reset_state [(⟨0, 7, 100, some 2, some 3⟩ : State)] 0 := by
  refine ⟨by decide, ?_, ?_⟩
  · exact (c6_reset_sets_only_pts [⟨0, 7, 100, some 2, some 3⟩] 55 0
      ⟨0, 7, 100, some 2, some 3⟩ (by decide)).1
  · exact (c6_reset_sets_only_pts [⟨0, 7, 100, some 2, some 3⟩] 55 0
      ⟨0, 7, 100, some 2, some 3⟩ (by decide)).2

theorem freshest_eq_none (l : List PeerRow) (h : freshest l = none) : l = [] := by
  cases l with
  | nil => rfl
  | cons a rest =>
    cases hf : freshest rest <;> simp [freshest, hf] at h
    split at h <;> simp_all

theorem freshest_le (l : List PeerRow) :
    ∀ r, freshest l = some r → ∀ x ∈ l, x.last_update_on ≤ r.last_update_on := by
  induction l with
  | nil => intro r h; simp [freshest] at h
  | cons a rest ih =>
    intro r h
    cases hf : freshest rest with
    | none =>
      have hrest : rest = [] := freshest_eq_none rest hf
      subst hrest
      simp [freshest] at h
      subst h
      simp
    | some b =>
      simp only [freshest, hf] at h
      by_cases hlt : b.last_update_on > a.last_update_on
      · rw [if_pos hlt] at h
        cases h
        intro x hx
        rcases List.mem_cons.mp hx with h1 | h1
        · subst h1; omega
        · exact ih r hf x h1
      · rw [if_neg hlt] at h
        cases h
        intro x hx
        rcases List.mem_cons.mp hx with h1 | h1
        · subst h1; omega
        · have := ih b hf x h1
          omega

/-- C4: get_peer_by_username fails with notFound when no row has the username,
otherwise selects a row with the greatest last_update_on among the matches,
fails with expired when the absolute difference (symmetric in both time
directions) between now and that row's last_update_on exceeds the 8-hour TTL,
and otherwise returns the input peer built from that row. -/
theorem c4_username_freshest_ttl (db : PeerDB) (now : Int) (u : String) :
    (db.filter (fun r => r.username == some u) = [] →
        get_peer_by_username db now u = Except.error PeerError.notFound) ∧
    (∀ r, freshest (db.filter (fun r2 => r2.username == some u)) = some r →
        (∀ x ∈ db.filter (fun r2 => r2.username == some u),
            x.last_update_on ≤ r.last_update_on) ∧
        (USERNAME_TTL < (now - r.last_update_on).natAbs →
            get_peer_by_username db now u = Except.error PeerError.expired) ∧
        ((now - r.last_update_on).natAbs ≤ USERNAME_TTL →
            get_peer_by_username db now u =
              get_input_peer r.id r.access_hash r.type)) := by
  constructor
  · intro h
    simp [get_peer_by_username, h, freshest]
  · intro r hr
    refine ⟨freshest_le _ r hr, ?_, ?_⟩
    · intro ht
      simp [get_peer_by_username, hr, ht]
    · intro ht
      have hn : ¬ USERNAME_TTL < (now - r.last_update_on).natAbs := by omega
      simp [get_peer_by_username, hr, hn]

theorem c4_username_freshest_ttl_witness :
    get_peer_by_username
        [(⟨1, 7, "user", some "alice", none, 0⟩ : PeerRow)] 32400 "alice" =
      Except.error PeerError.expired ∧
    get_peer_by_username
        [(⟨1, 7, "user", some "alice", none, 0⟩ : PeerRow)] 3600 "alice" =
      Except.ok (InputPeer.user 1 7) := by
  constructor
  · exact ((c4_username_freshest_ttl [⟨1, 7, "user", some "alice", none, 0⟩]
      32400 "alice").2 ⟨1, 7, "user", some "alice", none, 0⟩ (by decide)).2.1
      (by decide)
  · exact ((c4_username_freshest_ttl [⟨1, 7, "user", some "alice", none, 0⟩]
      3600 "alice").2 ⟨1, 7, "user", some "alice", none, 0⟩ (by decide)).2.2
      (by decide)

/-- C8: get_input_peer dispatches on the stored kind: user and bot build an
input user from id and access hash, group builds an input chat from the negated
id alone, channel and supergroup build an input channel from the transformed
channel id and the access hash, and any other kind fails with invalidKind. -/
theorem c8_input_peer_by_kind :
    (∀ pid ah : Int, get_input_peer pid ah "user" =
        Except.ok (InputPeer.user pid ah)) ∧
    (∀ pid ah : Int, get_input_peer pid ah "bot" =
        Except.ok (InputPeer.user pid ah)) ∧
    (∀ pid ah : Int, get_input_peer pid ah "group" =
        Except.ok (InputPeer.chat (-pid))) ∧
    (∀ pid ah : Int, get_input_peer pid ah "channel" =
        Except.ok (InputPeer.channel (get_channel_id pid) ah)) ∧
    (∀ pid ah : Int, get_input_peer pid ah "supergroup" =
        Except.ok (InputPeer.channel (get_channel_id pid) ah)) ∧
    (∀ (pid ah : Int) (t : String), t ≠ "user" → t ≠ "bot" → t ≠ "group" →
        t ≠ "channel" → t ≠ "supergroup" →
        get_input_peer pid ah t = Except.error PeerError.invalidKind) := by
  refine ⟨fun pid ah => rfl, fun pid ah => rfl, fun pid ah => rfl,
    fun pid ah => rfl, fun pid ah => rfl, ?_⟩
  intro pid ah t h1 h2 h3 h4 h5
  simp [get_input_peer, h1, h2, h3, h4, h5]

theorem c8_input_peer_by_kind_witness :
    get_input_peer 5 9 "user" = Except.ok (InputPeer.user 5 9) ∧
    get_input_peer 5 9 "gigagroup" = Except.error PeerError.invalidKind :=
  ⟨c8_input_peer_by_kind.1 5 9,
    c8_input_peer_by_kind.2.2.2.2.2 5 9 "gigagroup" (by decide) (by decide)
      (by decide) (by decide) (by decide)⟩

theorem recoverLoop_queries_head (sid : Int) (ls : LoopState)
    (script : List DiffResponse) :
    (recoverLoop sid ls script).queries.head? = some (mkQuery ls) := by
  cases script with
  | nil => rfl
  | cons d rest =>
    cases d with
    | empty d s => rfl
    | tooLong p => rfl
    | full st msgs us cs => rfl
    | slice st msgs us cs =>
      by_cases h : ls.prev_pts = st.pts <;> simp [recoverLoop, h]

/-- C1: on a TooLong response the loop persists the server-supplied pts together
with the old local date and seq, keeps the working pts unchanged, and therefore
issues the next difference query with the old local pts (equal to the pts of the
query that produced the TooLong). -/
theorem c1_tooLong_persist_keep_stale_pts (sid : Int) (ls : LoopState)
    (p : Int) (rest : List DiffResponse) (db : StateDB) (now : Int) :
    (recoverLoop sid ls (DiffResponse.tooLong p :: rest)).persists.head? =
      some ⟨sid, p, ls.local_date, none, ls.local_seq⟩ ∧
    (recoverLoop sid ls (DiffResponse.tooLong p :: rest)).queries.head? =
      some ⟨ls.local_pts, ls.local_date, 0, 1000000⟩ ∧
    (recoverLoop sid ls (DiffResponse.tooLong p :: rest)).queries.tail.head? =
      some ⟨ls.local_pts, ls.local_date, 0, 1000000⟩ ∧
    (recover_updates db now (DiffResponse.tooLong p :: rest)).persists.head? =
      some ⟨(get_state db now 0).id, p, (get_state db now 0).date, none,
        (get_state db now 0).seq⟩ := by
  refine ⟨rfl, rfl, ?_, rfl⟩
  exact recoverLoop_queries_head sid ls rest

/-- C2: fed two Slice responses with the same intermediate pts, the run issues
exactly two queries, ends stuck after classifying the second response, persists
nothing, and emits events only for the new messages of the first response. -/
theorem c2_repeated_slice_pts_stuck (db : StateDB) (now d1 s1 d2 s2 : Int)
    (ms1 ms2 : List Int) (us1 us2 : List RawUser) (cs1 cs2 : List RawChat) :
    recover_updates db now
        [DiffResponse.slice ⟨5, d1, s1⟩ ms1 us1 cs1,
          DiffResponse.slice ⟨5, d2, s2⟩ ms2 us2 cs2] =
      ⟨[⟨(get_state db now 0).pts, (get_state db now 0).date, 0, 1000000⟩,
          ⟨5, d1, 0, 1000000⟩],
        [], emitEvents 5 ms1 us1 cs1, Terminal.stuck, ms1.length, 0⟩ := by
  simp [recover_updates, recoverLoop, mkQuery]

/-- C3: fed a Full response with final pts 10 and two new messages followed by
Empty(date 99, seq 3), the run emits exactly the two queue items tagged with
pts 10 and pts_count -1, persists the cursor (pts 10, date 99, qts none, seq 3)
where the written pts is the unchanged working pts, and terminates done. -/
theorem c3_full_then_empty_done (db : StateDB) (now df sf m1 m2 : Int)
    (us : List RawUser) (cs : List RawChat) :
    recover_updates db now
        [DiffResponse.full ⟨10, df, sf⟩ [m1, m2] us cs,
          DiffResponse.empty 99 3] =
      ⟨[⟨(get_state db now 0).pts, (get_state db now 0).date, 0, 1000000⟩,
          ⟨10, df, 0, 1000000⟩],
        [⟨(get_state db now 0).id, 10, 99, none, some 3⟩],
        [(⟨m1, 10, -1⟩, usersDict us, chatsDict cs),
          (⟨m2, 10, -1⟩, usersDict us, chatsDict cs)],
        Terminal.done, 2, 0⟩ := by
  simp [recover_updates, recoverLoop, mkQuery, emitEvents]

theorem recoverLoop_persists_shape (sid : Int) (script : List DiffResponse) :
    ∀ ls : LoopState, ∀ w ∈ (recoverLoop sid ls script).persists,
      w.id = sid ∧ w.qts = none := by
  induction script with
  | nil => intro ls w hw; simp [recoverLoop] at hw
  | cons d rest ih =>
    intro ls w hw
    cases d with
    | empty dd ss =>
      simp [recoverLoop] at hw
      simp [hw]
    | tooLong p =>
      simp only [recoverLoop, List.mem_cons] at hw
      rcases hw with h | h
      · simp [h]
      · exact ih ls w h
    | full st msgs us cs =>
      simp only [recoverLoop] at hw
      exact ih _ w hw
    | slice st msgs us cs =>
      by_cases h : ls.prev_pts = st.pts
      · simp [recoverLoop, h] at hw
      · simp only [recoverLoop, h, if_neg, ite_false] at hw
        exact ih _ w hw

theorem applyWrites_qts_none (ws : List StateWrite) :
    ∀ db : StateDB, ∀ now now2 sid : Int, ws ≠ [] →
      (∀ w ∈ ws, w.id = sid ∧ w.qts = none) →
      (get_state (applyWrites db now ws) now2 sid).qts = none := by
  induction ws with
  | nil => intro db now now2 sid hne _; exact absurd rfl hne
  | cons w rest ih =>
    intro db now now2 sid _ hall
    cases rest with
    | nil =>
      have hw := hall w (by simp)
      have hrow : get_state (applyWrites db now [w]) now2 sid =
          ⟨w.id, w.pts, w.date, w.qts, w.seq⟩ := by
        rw [← hw.1]
        exact c7_update_then_get_roundtrip db now now2 w.id w.pts w.date w.qts w.seq
      rw [hrow]
      exact hw.2
    | cons y ys =>
      have hstep : applyWrites db now (w :: y :: ys) =
          applyWrites (applyWrite db now w) now (y :: ys) := rfl
      rw [hstep]
      exact ih (applyWrite db now w) now now2 sid (by simp)
        (fun x hx => hall x (List.mem_cons_of_mem w hx))

/-- C9: every cursor persist of the recovery loop carries qts = none (the loop
never passes qts to update_state), and because update_state is a whole-row
REPLACE, once the run has persisted at least once, the stored scope-0 row has
qts none, whatever qts the table held before. -/
theorem c9_persists_overwrite_qts (db : StateDB) (now now2 : Int)
    (script : List DiffResponse) :
    (∀ w ∈ (recover_updates db now script).persists, w.qts = none) ∧
    ((recover_updates db now script).persists ≠ [] →
        (get_state (applyWrites db now
            (recover_updates db now script).persists) now2 0).qts = none) := by
  have hshape : ∀ w ∈ (recover_updates db now script).persists,
      w.id = (get_state db now 0).id ∧ w.qts = none :=
    recoverLoop_persists_shape (get_state db now 0).id script
      ⟨(get_state db now 0).pts, (get_state db now 0).date,
        (get_state db now 0).seq, 0, 0, 0⟩
  constructor
  · intro w hw
    exact (hshape w hw).2
  · intro hne
    apply applyWrites_qts_none _ db now now2 0 hne
    intro w hw
    have h := hshape w hw
    exact ⟨by rw [h.1, get_state_id], h.2⟩

theorem c9_persists_overwrite_qts_witness :
    (get_state [(⟨0, 4, 50, some 77, some 6⟩ : State)] 5 0).qts = some 77 ∧
    (recover_updates [(⟨0, 4, 50, some 77, some 6⟩ : State)] 0
        [DiffResponse.empty 99 3]).persists ≠ [] ∧
    (get_state (applyWrites [(⟨0, 4, 50, some 77, some 6⟩ : State)] 0
        (recover_updates [(⟨0, 4, 50, some 77, some 6⟩ : State)] 0
          [DiffResponse.empty 99 3]).persists) 5 0).qts = none := by
  refine ⟨by decide, by decide, ?_⟩
  exact (c9_persists_overwrite_qts [⟨0, 4, 50, some 77, some 6⟩] 0 5
    [DiffResponse.empty 99 3]).2 (by decide)

end Pyrogram
